import Mathlib

/-!
Verification of the inbound-message decryption and dispatch core
(`message.go` of the whatsmeow client) against its specification.

Bytes are modelled as natural numbers; byte strings as `List Nat`.
Go functions that can hit a runtime panic (out-of-bounds slice access)
are modelled with an `Option` wrapper: `none` means the Go code panics.
External collaborators (the Signal session cipher, the key store,
protobuf parsing) are modelled as oracles: their results are inputs to
the embedded control flow, which is translated from the source.
-/

namespace Whatsmeow

/-- Error values produced by the decryption pipeline, one constructor per
`fmt.Errorf` site in the source. -/
inductive DecErr where
  | invalidPadding
  | parsePreKeyFailed
  | decryptPreKeyFailed
  | parseNormalFailed
  | decryptNormalFailed
  deriving DecidableEq, Repr

/-- `const checkPadding = true` from the source. -/
def checkPadding : Bool := true

/-- `isValidPadding`: reads the last byte `n` and checks that the buffer ends
in `n` copies of `n` (`bytes.HasSuffix(plaintext, bytes.Repeat([]byte{n}, n))`).
`none` models the Go runtime panic of `plaintext[len(plaintext)-1]` on an
empty buffer. -/
def isValidPadding (plaintext : List Nat) : Option Bool :=
  match plaintext.getLast? with
  | none => none
  | some lastByte =>
      some (decide (List.replicate lastByte lastByte <:+ plaintext))

/-- `unpadMessage`: if `checkPadding` and the padding is invalid, fail;
otherwise return `plaintext[:len(plaintext)-int(plaintext[len(plaintext)-1])]`.
`none` models the Go runtime panic on an empty buffer (both the validity
check and the final slice index the last byte). -/
def unpadMessage (plaintext : List Nat) : Option (Except DecErr (List Nat)) :=
  if checkPadding then
    match isValidPadding plaintext with
    | none => none
    | some false => some (Except.error DecErr.invalidPadding)
    | some true =>
        match plaintext.getLast? with
        | none => none
        | some lastByte => some (Except.ok (plaintext.take (plaintext.length - lastByte)))
  else
    match plaintext.getLast? with
    | none => none
    | some lastByte => some (Except.ok (plaintext.take (plaintext.length - lastByte)))

/-- `padMessage`: draw one random byte, mask it with `0xf`, replace `0` by
`0xf`, and append that many copies of it. The random byte is a parameter
here; masking with `0xf` is `% 16`. -/
def padMessage (randByte : Nat) (plaintext : List Nat) : List Nat :=
  let masked := randByte % 16
  let padByte := if masked = 0 then 15 else masked
  plaintext ++ List.replicate padByte padByte

/-! ### Pairwise decryptor (`decryptDM`) -/

/-- Result of one call into the external Signal cipher
(`cipher.DecryptMessageReturnKey` / `cipher.Decrypt`). -/
inductive DecryptResult where
  | ok (plaintext : List Nat)
  | untrustedIdentity
  | otherError
  deriving DecidableEq, Repr

/-- Oracle for the external collaborators of `decryptDM`: whether the
protobuf parses succeed, the outcomes of the cipher calls (the second
attempt is the cipher's answer after the identity/session records were
cleared), and whether the store deletions succeed. -/
structure SignalEnv where
  parsePreKeyOk : Bool
  parseNormalOk : Bool
  firstAttempt : DecryptResult
  secondAttempt : DecryptResult
  normalDecrypt : DecryptResult
  deleteIdentityOk : Bool
  deleteSessionOk : Bool
  deriving DecidableEq, Repr

/-- Observable side effects of `decryptDM`, in program order. -/
inductive DMEffect where
  | decryptAttempt
  | deleteIdentity
  | deleteSession
  | identityChangeEvent (implicit : Bool)
  | logWarn
  deriving DecidableEq, Repr

/-- `decryptDM`: parse the (pre-key or normal) Signal message, decrypt it,
and on an untrusted-identity failure of a pre-key decrypt delete the stored
identity and session (logging, not aborting, on deletion failure), dispatch
an implicit `IdentityChange` event, and retry the decrypt once; any
remaining failure is an error. On success the plaintext is unpadded.
Returns the emitted side effects and the result (`none` models a panic
inside `unpadMessage`). -/
def decryptDM (env : SignalEnv) (isPreKey : Bool) :
    List DMEffect × Option (Except DecErr (List Nat)) :=
  if isPreKey then
    if env.parsePreKeyOk = false then
      ([], some (Except.error DecErr.parsePreKeyFailed))
    else
      match env.firstAttempt with
      | DecryptResult.untrustedIdentity =>
          let effs := [DMEffect.decryptAttempt, DMEffect.deleteIdentity]
            ++ (if env.deleteIdentityOk then [] else [DMEffect.logWarn])
            ++ [DMEffect.deleteSession]
            ++ (if env.deleteSessionOk then [] else [DMEffect.logWarn])
            ++ [DMEffect.identityChangeEvent true, DMEffect.decryptAttempt]
          match env.secondAttempt with
          | DecryptResult.ok pt => (effs, unpadMessage pt)
          | _ => (effs, some (Except.error DecErr.decryptPreKeyFailed))
      | DecryptResult.ok pt => ([DMEffect.decryptAttempt], unpadMessage pt)
      | DecryptResult.otherError =>
          ([DMEffect.decryptAttempt], some (Except.error DecErr.decryptPreKeyFailed))
  else
    if env.parseNormalOk = false then
      ([], some (Except.error DecErr.parseNormalFailed))
    else
      match env.normalDecrypt with
      | DecryptResult.ok pt => ([DMEffect.decryptAttempt], unpadMessage pt)
      | _ => ([DMEffect.decryptAttempt], some (Except.error DecErr.decryptNormalFailed))

/-! ### Decoded message envelopes (`waProto.Message`) and the unwrapper -/

mutual

/-- The decoded application message (`waProto.Message`), restricted to the
fields `handleDecryptedMessage` looks at. `conversation` stands for the
plain content of the message; the sender-key-distribution and protocol
sub-messages are kept as opaque presence markers. -/
inductive PMsg : Type where
  | mk (deviceSentMessage : Option DSM)
       (senderKeyDistributionMessage : Option Unit)
       (protocolMessage : Option Unit)
       (ephemeralMessage : Option FPM)
       (viewOnceMessage : Option FPM)
       (conversation : String)

/-- `waProto.DeviceSentMessage`: destination JID, phash and inner message. -/
inductive DSM : Type where
  | mk (destinationJid : String) (phash : String) (message : Option PMsg)

/-- `waProto.FutureProofMessage` (ephemeral / view-once wrapper). -/
inductive FPM : Type where
  | mk (message : Option PMsg)

end

/-- Field accessor for `Message.DeviceSentMessage`. -/
def PMsg.deviceSentMessage : PMsg → Option DSM
  | .mk d _ _ _ _ _ => d

/-- Field accessor for `Message.SenderKeyDistributionMessage`. -/
def PMsg.senderKeyDistributionMessage : PMsg → Option Unit
  | .mk _ s _ _ _ _ => s

/-- Field accessor for `Message.ProtocolMessage`. -/
def PMsg.protocolMessage : PMsg → Option Unit
  | .mk _ _ p _ _ _ => p

/-- Field accessor for `Message.EphemeralMessage`. -/
def PMsg.ephemeralMessage : PMsg → Option FPM
  | .mk _ _ _ e _ _ => e

/-- Field accessor for `Message.ViewOnceMessage`. -/
def PMsg.viewOnceMessage : PMsg → Option FPM
  | .mk _ _ _ _ v _ => v

/-- Field accessor for `Message.Conversation`. -/
def PMsg.conversation : PMsg → String
  | .mk _ _ _ _ _ c => c

/-- Go getter `(*DeviceSentMessage).GetMessage()`: `nil` receiver gives `nil`. -/
def getDSMMessage : Option DSM → Option PMsg
  | none => none
  | some (.mk _ _ m) => m

/-- Go getter `(*DeviceSentMessage).GetDestinationJid()`: `nil` receiver
gives the empty string. -/
def getDSMDestinationJid : Option DSM → String
  | none => ""
  | some (.mk d _ _) => d

/-- Go getter `(*DeviceSentMessage).GetPhash()`: `nil` receiver gives the
empty string. -/
def getDSMPhash : Option DSM → String
  | none => ""
  | some (.mk _ p _) => p

/-- Go getter `(*FutureProofMessage).GetMessage()`: `nil` receiver gives `nil`. -/
def getFPMMessage : Option FPM → Option PMsg
  | none => none
  | some (.mk m) => m

/-- The `events.Message` record built by `handleDecryptedMessage`:
`deviceSentMeta` holds `(destinationJID, phash)` when present. -/
structure MessageEvent where
  rawMessage : PMsg
  deviceSentMeta : Option (String × String)
  isEphemeral : Bool
  isViewOnce : Bool
  message : PMsg

/-- Side-effecting calls made by `handleDecryptedMessage` besides the final
event dispatch. -/
inductive HandleEffect where
  | warnSKDMOutsideGroup
  | processSenderKeyDistribution
  | handleProtocolMessage
  deriving DecidableEq, Repr

/-- `handleDecryptedMessage`: unwrap a device-sent wrapper (recording
`deviceSentMeta` from the rebound `msg` variable, exactly as the source
does after the reassignment `msg = msg.GetDeviceSentMessage().GetMessage()`),
handle sender-key-distribution and protocol sub-messages, unwrap ephemeral
and view-once wrappers, and emit the event. -/
def handleDecryptedMessage (isGroup : Bool) (m0 : PMsg) :
    MessageEvent × List HandleEffect :=
  let (m1, meta) :=
    match getDSMMessage m0.deviceSentMessage with
    | some inner =>
        (inner, some (getDSMDestinationJid inner.deviceSentMessage,
                      getDSMPhash inner.deviceSentMessage))
    | none => (m0, none)
  let skdmEffs :=
    match m1.senderKeyDistributionMessage with
    | some _ =>
        if isGroup then [HandleEffect.processSenderKeyDistribution]
        else [HandleEffect.warnSKDMOutsideGroup]
    | none => []
  let protoEffs :=
    match m1.protocolMessage with
    | some _ => [HandleEffect.handleProtocolMessage]
    | none => []
  let (m2, isEph) :=
    match getFPMMessage m1.ephemeralMessage with
    | some inner => (inner, true)
    | none => (m1, false)
  let (m3, isVO) :=
    match getFPMMessage m2.viewOnceMessage with
    | some inner => (inner, true)
    | none => (m2, false)
  ({ rawMessage := m0, deviceSentMeta := meta, isEphemeral := isEph,
     isViewOnce := isVO, message := m3 },
   skdmEffs ++ protoEffs)

/-! ### Message source resolver (`parseMessageSource`) -/

/-- Modelled from the spec: a JID (the `types` package is not part of this
source file) — a user component, agent/device qualifiers and a server
(domain) component. -/
structure JID where
  user : String
  agent : Nat
  device : Nat
  server : String
  deriving DecidableEq, Repr

/-- Modelled from the spec: the group domain (`types.GroupServer`), written
`g.us` in the spec examples. -/
def GroupServer : String := "g.us"

/-- Modelled from the spec: the broadcast domain (`types.BroadcastServer`). -/
def BroadcastServer : String := "broadcast"

/-- Modelled from the spec: `types.JID.ToNonAD`, the non-device-qualified
form of a JID (agent and device dropped). -/
def toNonAD (j : JID) : JID :=
  { user := j.user, agent := 0, device := 0, server := j.server }

/-- The attributes of an inbound message node that `parseMessageSource`
reads; `none` models an absent attribute or a failed `.(types.JID)` type
assertion. -/
structure SourceAttrs where
  fromAttr : Option JID
  participant : Option JID
  recipient : Option JID
  deriving DecidableEq, Repr

/-- Errors of `parseMessageSource`, one per `fmt.Errorf` site. -/
inductive SourceErr where
  | missingFrom
  | missingParticipant
  deriving DecidableEq, Repr

/-- `types.MessageSource`. -/
structure MessageSource where
  chat : JID
  sender : JID
  isGroup : Bool
  isFromMe : Bool
  broadcastListOwner : Option JID
  deriving DecidableEq, Repr

/-- The zero value of `types.MessageSource` (Go zero-initialises `source`). -/
def emptySource : MessageSource :=
  { chat := ⟨"", 0, 0, ""⟩, sender := ⟨"", 0, 0, ""⟩, isGroup := false,
    isFromMe := false, broadcastListOwner := none }

/-- `parseMessageSource`: classify an inbound node into chat / sender /
from-me, keyed on the `from` attribute's server, with `storeIDUser` the
local account's user component (`cli.Store.ID.User`). -/
def parseMessageSource (storeIDUser : String) (attrs : SourceAttrs) :
    Except SourceErr MessageSource :=
  match attrs.fromAttr with
  | none => Except.error SourceErr.missingFrom
  | some fromJID =>
      if fromJID.server = GroupServer ∨ fromJID.server = BroadcastServer then
        match attrs.participant with
        | none => Except.error SourceErr.missingParticipant
        | some sender =>
            Except.ok
              { emptySource with
                isGroup := true
                chat := fromJID
                sender := sender
                isFromMe := sender.user = storeIDUser
                broadcastListOwner :=
                  if fromJID.server = BroadcastServer then attrs.recipient else none }
      else if fromJID.user = storeIDUser then
        Except.ok
          { emptySource with
            isFromMe := true
            sender := fromJID
            chat :=
              match attrs.recipient with
              | none => toNonAD fromJID
              | some recipient => recipient }
      else
        Except.ok
          { emptySource with chat := toNonAD fromJID, sender := fromJID }

/-! ### Decryption dispatcher (`decryptMessages`) -/

/-- One child element of an inbound node, with the external results of
decryption and protobuf unmarshalling attached as oracles: `decResult` is
what `decryptDM` / `decryptGroupMsg` returns for this element, `unmarshal`
is the result of `proto.Unmarshal` on the decrypted plaintext. -/
structure MsgChild where
  tag : String
  encType : Option String
  decResult : Except DecErr (List Nat)
  unmarshal : Option PMsg

/-- Observable effects of `decryptMessages`, in issue order. -/
inductive MsgEffect where
  | sendAck
  | sendRetryReceipt (unavailable : Bool)
  | dispatchUndecryptable (isUnavailable : Bool)
  | handleDecrypted (m : PMsg)
  | sendMessageReceipt

/-- The body of the child-processing loop of `decryptMessages`, threading
the `handled` flag; after the loop a single message receipt is sent when
`handled` is set. -/
def decryptLoop (isGroup : Bool) : List MsgChild → Bool → List MsgEffect
  | [], handled => if handled then [MsgEffect.sendMessageReceipt] else []
  | child :: rest, handled =>
      if child.tag ≠ "enc" then decryptLoop isGroup rest handled
      else
        match child.encType with
        | none => decryptLoop isGroup rest handled
        | some encType =>
            if encType = "pkmsg" ∨ encType = "msg" ∨
                (isGroup = true ∧ encType = "skmsg") then
              match child.decResult with
              | Except.error _ =>
                  [MsgEffect.sendRetryReceipt false,
                   MsgEffect.dispatchUndecryptable false]
              | Except.ok _ =>
                  match child.unmarshal with
                  | none => decryptLoop isGroup rest handled
                  | some m =>
                      MsgEffect.handleDecrypted m :: decryptLoop isGroup rest true
            else decryptLoop isGroup rest handled

/-- `decryptMessages`: acknowledge the node; if every child is tagged
`unavailable`, send an unavailable retry receipt and dispatch one
unavailable `UndecryptableMessage` event and stop; otherwise run the
child-processing loop. -/
def decryptMessages (isGroup : Bool) (children : List MsgChild) : List MsgEffect :=
  MsgEffect.sendAck ::
    (if (children.filter (fun c => c.tag = "unavailable")).length = children.length then
      [MsgEffect.sendRetryReceipt true, MsgEffect.dispatchUndecryptable true]
    else decryptLoop isGroup children false)

/-- A child is routed to a decryptor exactly when it is tagged `enc` with a
string `type` attribute equal to `pkmsg` or `msg`, or `skmsg` in a group. -/
def routedEnc (isGroup : Bool) (c : MsgChild) : Bool :=
  c.tag = "enc" &&
    match c.encType with
    | none => false
    | some t => t = "pkmsg" || t = "msg" || (isGroup && t = "skmsg")

/-- Whether the oracle decryption result of a child is a failure. -/
def decFails (c : MsgChild) : Bool :=
  match c.decResult with
  | Except.error _ => true
  | Except.ok _ => false

/-- A child aborts the loop exactly when it is routed and its decryption
fails. -/
def childAborts (isGroup : Bool) (c : MsgChild) : Bool :=
  routedEnc isGroup c && decFails c

/-- The decoded message a child contributes: its unmarshalled plaintext,
when it is routed, decrypts and unmarshals. -/
def childMessage (isGroup : Bool) (c : MsgChild) : Option PMsg :=
  if routedEnc isGroup c && !decFails c then c.unmarshal else none

/-! ### Theorems: padding codec -/

/-- Helper: unpadding a buffer that ends in `n` copies of `n`, `n ≠ 0`,
recovers the prefix. -/
lemma unpadMessage_append_replicate (x : List Nat) (n : Nat) (hn : n ≠ 0) :
    unpadMessage (x ++ List.replicate n n) = some (Except.ok x) := by
  have hrep : List.replicate n n ≠ [] := by
    intro h
    have hl := congrArg List.length h
    simp at hl
    exact hn hl
  have hlast : (x ++ List.replicate n n).getLast? = some n := by
    rw [List.getLast?_append_of_ne_nil _ hrep, List.getLast?_replicate]
    simp [hn]
  have hsuf : List.replicate n n <:+ x ++ List.replicate n n :=
    List.suffix_append _ _
  have hlen : (x ++ List.replicate n n).length - n = x.length := by
    simp
  rw [unpadMessage]
  simp only [checkPadding, if_true, isValidPadding, hlast]
  rw [decide_eq_true hsuf]
  rw [hlen]
  rw [List.take_left]

/-- C3: for every non-empty byte sequence `x` and every random byte,
`unpad (pad x) = x`: the padding byte `n` lands in `[1,15]` and unpadding
strips exactly the appended `n` copies of `n`. -/
theorem unpad_pad_roundtrip (x : List Nat) (randByte : Nat) (hx : x ≠ []) :
    unpadMessage (padMessage randByte x) = some (Except.ok x) := by
  have hn : (if randByte % 16 = 0 then 15 else randByte % 16) ≠ 0 := by
    split <;> omega
  simpa [padMessage] using
    unpadMessage_append_replicate x (if randByte % 16 = 0 then 15 else randByte % 16) hn

/-- Witness for C3 at `x = [1, 2]`, random byte `3`. -/
theorem unpad_pad_roundtrip_witness :
    ([1, 2] : List Nat) ≠ [] ∧
      unpadMessage (padMessage 3 [1, 2]) = some (Except.ok [1, 2]) :=
  ⟨by decide, unpad_pad_roundtrip [1, 2] 3 (by decide)⟩

/-- Counterexample to C4 as stated: on the buffer `[0]` the last byte is
`n = 0`, yet `unpad` succeeds (it returns the whole buffer), because a
zero-length expected padding is a suffix of everything; the claim says
`unpad` must fail for `n = 0`. -/
theorem unpad_zero_padding_ok :
    [0].getLast? = some 0 ∧ unpadMessage [0] = some (Except.ok [0]) :=
  ⟨rfl, rfl⟩

/-- C4 (amended): for every non-empty buffer with last byte `n`, `unpad`
succeeds exactly when the final `n` bytes all equal `n` — vacuously so for
`n = 0`, in which case the buffer is returned unchanged — and fails with
the invalid-padding error otherwise; the check runs on every call. -/
theorem unpad_success_iff (l : List Nat) (n : Nat) (h : l.getLast? = some n) :
    (List.replicate n n <:+ l →
      unpadMessage l = some (Except.ok (l.take (l.length - n)))) ∧
    (¬ List.replicate n n <:+ l →
      unpadMessage l = some (Except.error DecErr.invalidPadding)) := by
  constructor
  · intro hsuf
    rw [unpadMessage]
    simp only [checkPadding, if_true, isValidPadding, h]
    rw [decide_eq_true hsuf]
  · intro hsuf
    rw [unpadMessage]
    simp only [checkPadding, if_true, isValidPadding, h]
    rw [decide_eq_false hsuf]

/-- Witness for C4 on the buffer `[7, 2, 2]` (valid padding `n = 2`) and on
`[7, 2, 3]` (invalid padding). -/
theorem unpad_success_iff_witness :
    ([7, 2, 2] : List Nat).getLast? = some 2 ∧
      unpadMessage [7, 2, 2] = some (Except.ok ([7, 2, 2].take 1)) ∧
      unpadMessage [7, 2, 3] = some (Except.error DecErr.invalidPadding) :=
  ⟨rfl,
   (unpad_success_iff [7, 2, 2] 2 rfl).1 (by decide),
   (unpad_success_iff [7, 2, 3] 3 rfl).2 (by decide)⟩

/-- C8: evaluating `unpadMessage` on the empty buffer reaches the Go
out-of-bounds access `plaintext[len(plaintext)-1]` (modelled as `none`,
a panic), so `unpad` is not total on every input. -/
theorem unpadMessage_empty_panics : unpadMessage [] = none := rfl

/-! ### Theorems: unwrapper and source resolver -/

/-- A plain message body. -/
def dsBody : PMsg := PMsg.mk none none none none none "hello"

/-- An ephemeral wrapper around `dsBody`. -/
def dsInner : PMsg := PMsg.mk none none none (some (FPM.mk (some dsBody))) none ""

/-- A device-sent wrapper (destination `dst@s.whatsapp.net`, phash `ph`)
around `dsInner`. -/
def dsWrapper : PMsg :=
  PMsg.mk (some (DSM.mk "dst@s.whatsapp.net" "ph" (some dsInner))) none none none none ""

/-- C5: on a device-sent wrapper with destination `dst@s.whatsapp.net` and
phash `ph` around an ephemeral wrapper around a plain body, the handler
sets `deviceSentMeta` to `("", "")` — it reads destination and phash from
the already-rebound inner message, not from the wrapper — while the claim
requires `("dst@s.whatsapp.net", "ph")`; the ephemeral flag and innermost
body are as claimed. -/
theorem handleDecryptedMessage_meta_bug :
    (handleDecryptedMessage false dsWrapper).1.deviceSentMeta = some ("", "") ∧
    (handleDecryptedMessage false dsWrapper).1.deviceSentMeta ≠
      some ("dst@s.whatsapp.net", "ph") ∧
    (handleDecryptedMessage false dsWrapper).1.isEphemeral = true ∧
    (handleDecryptedMessage false dsWrapper).1.message = dsBody :=
  ⟨rfl, by decide, rfl, rfl⟩

/-- C6: for a node whose `from` attribute has the group or broadcast
domain, the resolved source has `isGroup = true` and `chat = from`; a
missing `participant` fails with the malformed-source error, and otherwise
`sender` is the participant and `isFromMe` holds exactly when the sender's
user component equals the local account's user component. -/
theorem parseMessageSource_group (storeIDUser : String) (attrs : SourceAttrs)
    (fromJID : JID) (hfrom : attrs.fromAttr = some fromJID)
    (hserver : fromJID.server = GroupServer ∨ fromJID.server = BroadcastServer) :
    (attrs.participant = none →
      parseMessageSource storeIDUser attrs = Except.error SourceErr.missingParticipant) ∧
    (∀ p, attrs.participant = some p →
      ∃ src, parseMessageSource storeIDUser attrs = Except.ok src ∧
        src.isGroup = true ∧ src.chat = fromJID ∧ src.sender = p ∧
        (src.isFromMe = true ↔ p.user = storeIDUser)) := by
  constructor
  · intro hp
    simp [parseMessageSource, hfrom, hserver, hp]
  · intro p hp
    have hres : parseMessageSource storeIDUser attrs =
        Except.ok
          { emptySource with
            isGroup := true
            chat := fromJID
            sender := p
            isFromMe := decide (p.user = storeIDUser)
            broadcastListOwner :=
              if fromJID.server = BroadcastServer then attrs.recipient else none } := by
      simp [parseMessageSource, hfrom, hserver, hp]
    exact ⟨_, hres, rfl, rfl, rfl, decide_eq_true_iff⟩

/-- Witness for C6 on the spec example: `from = 123@g.us`,
`participant = 456@s.whatsapp.net`, local user `456`. -/
theorem parseMessageSource_group_witness :
    ∃ src,
      parseMessageSource "456"
          ⟨some ⟨"123", 0, 0, "g.us"⟩, some ⟨"456", 0, 0, "s.whatsapp.net"⟩, none⟩ =
        Except.ok src ∧
      src.isGroup = true ∧ src.chat = ⟨"123", 0, 0, "g.us"⟩ ∧
      src.sender = ⟨"456", 0, 0, "s.whatsapp.net"⟩ ∧
      (src.isFromMe = true ↔ ("456" : String) = "456") :=
  (parseMessageSource_group "456"
      ⟨some ⟨"123", 0, 0, "g.us"⟩, some ⟨"456", 0, 0, "s.whatsapp.net"⟩, none⟩
      ⟨"123", 0, 0, "g.us"⟩ rfl (Or.inl rfl)).2
    ⟨"456", 0, 0, "s.whatsapp.net"⟩ rfl

/-! ### Theorems: decryption dispatcher -/

/-- C9: for a node with zero child elements the all-unavailable check is
vacuously satisfied, so the dispatcher acknowledges, requests an
unavailable retry, dispatches one unavailable `UndecryptableMessage` event
and attempts no decryption. -/
theorem decryptMessages_no_children (isGroup : Bool) :
    decryptMessages isGroup [] =
      [MsgEffect.sendAck, MsgEffect.sendRetryReceipt true,
       MsgEffect.dispatchUndecryptable true] := rfl

/-- C7: for a node all of whose children are tagged `unavailable`, the
dispatcher emits exactly the acknowledgement, one unavailable retry
receipt and one unavailable `UndecryptableMessage` event, and processes no
child. -/
theorem decryptMessages_all_unavailable (isGroup : Bool) (children : List MsgChild)
    (h : ∀ c ∈ children, c.tag = "unavailable") :
    decryptMessages isGroup children =
      [MsgEffect.sendAck, MsgEffect.sendRetryReceipt true,
       MsgEffect.dispatchUndecryptable true] := by
  rw [decryptMessages,
    if_pos (List.filter_length_eq_length.mpr fun c hc => decide_eq_true (h c hc))]

/-- A child tagged `unavailable`, as sent when a sender declares a message
undeliverable. -/
def unavailChild : MsgChild :=
  { tag := "unavailable", encType := none, decResult := Except.ok [], unmarshal := none }

/-- Witness for C7 on a node with a single `unavailable` child. -/
theorem decryptMessages_all_unavailable_witness :
    decryptMessages false [unavailChild] =
      [MsgEffect.sendAck, MsgEffect.sendRetryReceipt true,
       MsgEffect.dispatchUndecryptable true] :=
  decryptMessages_all_unavailable false [unavailChild]
    (fun c hc => by rw [List.mem_singleton] at hc; rw [hc]; rfl)

/-- The `handleDecryptedMessage` dispatches contributed by a list of
children, in order: one per child that is routed, decrypts and
unmarshals. -/
def dispatchedMessages (isGroup : Bool) (l : List MsgChild) : List MsgEffect :=
  l.filterMap fun c => (childMessage isGroup c).map MsgEffect.handleDecrypted

/-- Unfolding of `childAborts` into its constituent conditions. -/
lemma childAborts_iff (isGroup : Bool) (c : MsgChild) :
    childAborts isGroup c = true ↔
      c.tag = "enc" ∧
        (∃ t, c.encType = some t ∧
          (t = "pkmsg" ∨ t = "msg" ∨ (isGroup = true ∧ t = "skmsg"))) ∧
        ∃ e, c.decResult = Except.error e := by
  rcases c with ⟨tag, encType, decResult, unm⟩
  simp only [childAborts, routedEnc, decFails, Bool.and_eq_true, decide_eq_true_eq]
  cases encType <;> cases decResult <;>
    simp [Bool.and_eq_true, Bool.or_eq_true, decide_eq_true_eq, and_assoc, or_assoc]

/-- Unfolding of `routedEnc` into its constituent conditions. -/
lemma routedEnc_iff (isGroup : Bool) (c : MsgChild) :
    routedEnc isGroup c = true ↔
      c.tag = "enc" ∧
        ∃ t, c.encType = some t ∧
          (t = "pkmsg" ∨ t = "msg" ∨ (isGroup = true ∧ t = "skmsg")) := by
  rcases c with ⟨tag, encType, decResult, unm⟩
  simp only [routedEnc]
  cases encType <;>
    simp [Bool.and_eq_true, Bool.or_eq_true, decide_eq_true_eq, or_assoc]

/-- A child that aborts the loop replaces the tail of the effect list with
the retry receipt and the non-unavailable `UndecryptableMessage` event. -/
lemma decryptLoop_cons_abort (isGroup : Bool) (c : MsgChild) (l : List MsgChild)
    (handled : Bool) (h : childAborts isGroup c = true) :
    decryptLoop isGroup (c :: l) handled =
      [MsgEffect.sendRetryReceipt false, MsgEffect.dispatchUndecryptable false] := by
  obtain ⟨htag, ⟨t, het, hcond⟩, e, herr⟩ := (childAborts_iff isGroup c).mp h
  simp [decryptLoop, htag, het, hcond, herr]

/-- A child that neither aborts nor contributes a message is skipped. -/
lemma decryptLoop_cons_skip (isGroup : Bool) (c : MsgChild) (l : List MsgChild)
    (handled : Bool) (hmsg : childMessage isGroup c = none)
    (hab : childAborts isGroup c = false) :
    decryptLoop isGroup (c :: l) handled = decryptLoop isGroup l handled := by
  by_cases htag : c.tag = "enc"
  · cases het : c.encType with
    | none => simp [decryptLoop, htag, het]
    | some t =>
        by_cases hcond : t = "pkmsg" ∨ t = "msg" ∨ (isGroup = true ∧ t = "skmsg")
        · cases herr : c.decResult with
          | error e =>
              exact absurd
                ((childAborts_iff isGroup c).mpr ⟨htag, ⟨t, het, hcond⟩, e, herr⟩)
                (by simp [hab])
          | ok pt =>
              cases hunm : c.unmarshal with
              | none => simp [decryptLoop, htag, het, hcond, herr, hunm]
              | some m =>
                  exfalso
                  have hroute : routedEnc isGroup c = true :=
                    (routedEnc_iff isGroup c).mpr ⟨htag, t, het, hcond⟩
                  have hnf : decFails c = false := by simp [decFails, herr]
                  rw [childMessage, hroute, hnf] at hmsg
                  simp [hunm] at hmsg
        · simp [decryptLoop, htag, het, hcond]
  · simp [decryptLoop, htag]

/-- A child that decrypts and unmarshals contributes one
`handleDecrypted` dispatch and sets the `handled` flag. -/
lemma decryptLoop_cons_handle (isGroup : Bool) (c : MsgChild) (l : List MsgChild)
    (handled : Bool) (m : PMsg) (hmsg : childMessage isGroup c = some m) :
    decryptLoop isGroup (c :: l) handled =
      MsgEffect.handleDecrypted m :: decryptLoop isGroup l true := by
  have hcond : (routedEnc isGroup c && !decFails c) = true := by
    by_contra hx
    rw [childMessage, if_neg hx] at hmsg
    exact Option.noConfusion hmsg
  obtain ⟨hroute, hnf⟩ : routedEnc isGroup c = true ∧ (!decFails c) = true := by
    simpa using hcond
  obtain ⟨htag, t, het, hcnd⟩ := (routedEnc_iff isGroup c).mp hroute
  have hunm : c.unmarshal = some m := by
    rw [childMessage, if_pos hcond] at hmsg
    exact hmsg
  cases herr : c.decResult with
  | error e => rw [decFails, herr] at hnf; simp at hnf
  | ok pt => simp [decryptLoop, htag, het, hcnd, herr, hunm]

/-- After a non-aborting prefix, an aborting child ends the loop with the
retry receipt and failure event appended to the prefix's dispatches; the
remaining children and the `handled` flag are ignored. -/
lemma decryptLoop_abort (isGroup : Bool) (pre : List MsgChild) (fc : MsgChild)
    (rest : List MsgChild) (hfc : childAborts isGroup fc = true) :
    ∀ handled, (∀ c ∈ pre, childAborts isGroup c = false) →
      decryptLoop isGroup (pre ++ fc :: rest) handled =
        dispatchedMessages isGroup pre ++
          [MsgEffect.sendRetryReceipt false, MsgEffect.dispatchUndecryptable false] := by
  induction pre with
  | nil =>
      intro handled _
      simpa [dispatchedMessages] using decryptLoop_cons_abort isGroup fc rest handled hfc
  | cons c cs ih =>
      intro handled hpre
      have hc : childAborts isGroup c = false := hpre c (List.mem_cons_self c cs)
      have hcs : ∀ x ∈ cs, childAborts isGroup x = false :=
        fun x hx => hpre x (List.mem_cons_of_mem c hx)
      cases hcm : childMessage isGroup c with
      | none =>
          rw [List.cons_append, decryptLoop_cons_skip isGroup c _ handled hcm hc,
            ih handled hcs]
          simp [dispatchedMessages, List.filterMap_cons, hcm]
      | some m =>
          rw [List.cons_append, decryptLoop_cons_handle isGroup c _ handled m hcm,
            ih true hcs]
          simp [dispatchedMessages, List.filterMap_cons, hcm]

/-- Discriminator for `UndecryptableMessage` events with a given
`isUnavailable` flag. -/
def isUndecryptableEvent (b : Bool) : MsgEffect → Bool
  | MsgEffect.dispatchUndecryptable x => x == b
  | _ => false

/-- Discriminator for retry receipts with a given `unavailable` flag. -/
def isRetryReceiptEffect (b : Bool) : MsgEffect → Bool
  | MsgEffect.sendRetryReceipt x => x == b
  | _ => false

/-- Every element of `dispatchedMessages` is a `handleDecrypted` dispatch. -/
lemma mem_dispatchedMessages (isGroup : Bool) (l : List MsgChild) (x : MsgEffect)
    (hx : x ∈ dispatchedMessages isGroup l) : ∃ m, x = MsgEffect.handleDecrypted m := by
  obtain ⟨c, _, hfc⟩ := List.mem_filterMap.mp hx
  obtain ⟨m, _, hm⟩ := Option.map_eq_some'.mp hfc
  exact ⟨m, hm.symm⟩

/-- The dispatches of a non-failing prefix contain no undecryptable
events, no retry receipts and no message receipt. -/
lemma dispatchedMessages_countP (isGroup : Bool) (l : List MsgChild) :
    (∀ b, List.countP (isUndecryptableEvent b) (dispatchedMessages isGroup l) = 0) ∧
    (∀ b, List.countP (isRetryReceiptEffect b) (dispatchedMessages isGroup l) = 0) ∧
    MsgEffect.sendMessageReceipt ∉ dispatchedMessages isGroup l := by
  refine ⟨fun b => List.countP_eq_zero.mpr fun x hx => ?_,
    fun b => List.countP_eq_zero.mpr fun x hx => ?_, fun hx => ?_⟩
  · obtain ⟨m, rfl⟩ := mem_dispatchedMessages isGroup l x hx
    simp [isUndecryptableEvent]
  · obtain ⟨m, rfl⟩ := mem_dispatchedMessages isGroup l x hx
    simp [isRetryReceiptEffect]
  · obtain ⟨m, hm⟩ := mem_dispatchedMessages isGroup l _ hx
    exact MsgEffect.noConfusion hm

/-- C2: when the children of a node are a non-failing prefix, a routed
child whose decryption fails, and arbitrary remaining children, the
dispatcher emits the acknowledgement, the dispatches of the prefix,
exactly one non-unavailable retry receipt and exactly one
`UndecryptableMessage{isUnavailable:false}` event, and nothing else: the
remaining children are not processed, the prefix's dispatches remain, and
no message receipt is sent. -/
theorem decryptMessages_abort_on_failure (isGroup : Bool) (pre : List MsgChild)
    (fc : MsgChild) (rest : List MsgChild)
    (hpre : ∀ c ∈ pre, childAborts isGroup c = false)
    (hfc : childAborts isGroup fc = true) :
    decryptMessages isGroup (pre ++ fc :: rest) =
      MsgEffect.sendAck :: dispatchedMessages isGroup pre ++
        [MsgEffect.sendRetryReceipt false, MsgEffect.dispatchUndecryptable false] ∧
    List.countP (isUndecryptableEvent false)
      (decryptMessages isGroup (pre ++ fc :: rest)) = 1 ∧
    List.countP (isUndecryptableEvent true)
      (decryptMessages isGroup (pre ++ fc :: rest)) = 0 ∧
    List.countP (isRetryReceiptEffect false)
      (decryptMessages isGroup (pre ++ fc :: rest)) = 1 ∧
    MsgEffect.sendMessageReceipt ∉ decryptMessages isGroup (pre ++ fc :: rest) := by
  have htagfc : fc.tag = "enc" := ((childAborts_iff isGroup fc).mp hfc).1
  have hnotall :
      ¬ ((pre ++ fc :: rest).filter (fun c => c.tag = "unavailable")).length =
        (pre ++ fc :: rest).length := by
    intro hlen
    have hall := List.filter_length_eq_length.mp hlen fc
      (by simp)
    rw [htagfc] at hall
    simp at hall
  have heq : decryptMessages isGroup (pre ++ fc :: rest) =
      MsgEffect.sendAck :: dispatchedMessages isGroup pre ++
        [MsgEffect.sendRetryReceipt false, MsgEffect.dispatchUndecryptable false] := by
    rw [decryptMessages, if_neg hnotall, decryptLoop_abort isGroup pre fc rest hfc false hpre,
      List.cons_append]
  obtain ⟨hcu, hcr, hcm⟩ := dispatchedMessages_countP isGroup pre
  refine ⟨heq, ?_, ?_, ?_, ?_⟩
  · rw [heq]
    simp [List.countP_cons, List.countP_append, List.countP_nil, hcu, isUndecryptableEvent]
  · rw [heq]
    simp [List.countP_cons, List.countP_append, List.countP_nil, hcu, isUndecryptableEvent]
  · rw [heq]
    simp [List.countP_cons, List.countP_append, List.countP_nil, hcr, isRetryReceiptEffect]
  · rw [heq]
    intro hmem
    rcases List.mem_cons.mp hmem with h | h
    · exact MsgEffect.noConfusion h
    · rcases List.mem_append.mp h with h | h
      · exact hcm h
      · simp at h

/-- A decoded message used by the dispatcher witnesses. -/
def w2Msg : PMsg := PMsg.mk none none none none none "ok"

/-- A child that decrypts and unmarshals successfully. -/
def w2Ok : MsgChild :=
  { tag := "enc", encType := some "msg", decResult := Except.ok [1, 1],
    unmarshal := some w2Msg }

/-- A routed child whose decryption fails. -/
def w2Fail : MsgChild :=
  { tag := "enc", encType := some "msg",
    decResult := Except.error DecErr.decryptNormalFailed, unmarshal := none }

/-- A further child after the failing one. -/
def w2Rest : MsgChild :=
  { tag := "enc", encType := some "pkmsg", decResult := Except.ok [2, 2],
    unmarshal := some w2Msg }

/-- Witness for C2 on a node with one successful child, one failing child
and one further child. -/
theorem decryptMessages_abort_on_failure_witness :
    decryptMessages false ([w2Ok] ++ w2Fail :: [w2Rest]) =
      MsgEffect.sendAck :: dispatchedMessages false [w2Ok] ++
        [MsgEffect.sendRetryReceipt false, MsgEffect.dispatchUndecryptable false] ∧
    List.countP (isUndecryptableEvent false)
      (decryptMessages false ([w2Ok] ++ w2Fail :: [w2Rest])) = 1 ∧
    List.countP (isUndecryptableEvent true)
      (decryptMessages false ([w2Ok] ++ w2Fail :: [w2Rest])) = 0 ∧
    List.countP (isRetryReceiptEffect false)
      (decryptMessages false ([w2Ok] ++ w2Fail :: [w2Rest])) = 1 ∧
    MsgEffect.sendMessageReceipt ∉ decryptMessages false ([w2Ok] ++ w2Fail :: [w2Rest]) :=
  decryptMessages_abort_on_failure false [w2Ok] w2Fail [w2Rest]
    (fun c hc => by rw [List.mem_singleton] at hc; rw [hc]; rfl) rfl

/-- The message receipt appears in the loop's effects exactly when no
child aborts and either the `handled` flag is already set or some child
contributes a message. -/
lemma receipt_mem_decryptLoop (isGroup : Bool) (l : List MsgChild) :
    ∀ handled, MsgEffect.sendMessageReceipt ∈ decryptLoop isGroup l handled ↔
      ((∀ c ∈ l, childAborts isGroup c = false) ∧
        (handled = true ∨ ∃ c ∈ l, (childMessage isGroup c).isSome = true)) := by
  induction l with
  | nil =>
      intro handled
      cases handled <;> simp [decryptLoop]
  | cons c cs ih =>
      intro handled
      cases hab : childAborts isGroup c with
      | true =>
          rw [decryptLoop_cons_abort isGroup c cs handled hab]
          simp [hab]
      | false =>
          cases hcm : childMessage isGroup c with
          | none =>
              rw [decryptLoop_cons_skip isGroup c cs handled hcm hab, ih handled]
              simp [hab, hcm]
          | some m =>
              rw [decryptLoop_cons_handle isGroup c cs handled m hcm]
              simp [hab, hcm, ih true]

/-- C10: the dispatcher sends the message-received receipt exactly when the
child-processing loop runs to completion (no routed child's decryption
fails, and not everything was declared unavailable) with at least one
successfully handled element; in particular an aborting failure suppresses
the receipt even when earlier children were dispatched. -/
theorem messageReceipt_iff_clean_completion (isGroup : Bool) (children : List MsgChild) :
    MsgEffect.sendMessageReceipt ∈ decryptMessages isGroup children ↔
      ((∀ c ∈ children, childAborts isGroup c = false) ∧
        ∃ c ∈ children, (childMessage isGroup c).isSome = true) := by
  rw [decryptMessages]
  by_cases hall :
      (children.filter fun c => c.tag = "unavailable").length = children.length
  · rw [if_pos hall]
    have hunav : ∀ c ∈ children, c.tag = "unavailable" := fun c hc =>
      of_decide_eq_true (List.filter_length_eq_length.mp hall c hc)
    constructor
    · intro hmem
      simp at hmem
    · rintro ⟨-, c, hc, hsome⟩
      exfalso
      have hroute : routedEnc isGroup c = false := by
        unfold routedEnc
        rw [hunav c hc]
        simp
      rw [childMessage, hroute] at hsome
      simp at hsome
  · rw [if_neg hall]
    rw [List.mem_cons]
    rw [receipt_mem_decryptLoop isGroup children false]
    simp

/-! ### Theorems: pairwise decryptor -/

/-- A pre-key decrypt failure that is not an untrusted-identity failure
propagates as the decrypt error, with a single cipher call and no
recovery. -/
lemma decryptDM_other_failure (env : SignalEnv)
    (hparse : env.parsePreKeyOk = true)
    (hfirst : env.firstAttempt = DecryptResult.otherError) :
    decryptDM env true =
      ([DMEffect.decryptAttempt], some (Except.error DecErr.decryptPreKeyFailed)) := by
  simp [decryptDM, hparse, hfirst]

/-- Non-pre-key (standard) decryption makes at most one cipher call and
never emits an identity-change event. -/
lemma decryptDM_nonprekey_no_retry (env : SignalEnv) :
    List.count DMEffect.decryptAttempt (decryptDM env false).1 ≤ 1 ∧
    ∀ b, List.count (DMEffect.identityChangeEvent b) (decryptDM env false).1 = 0 := by
  cases hpn : env.parseNormalOk <;> cases hnd : env.normalDecrypt <;>
    simp [decryptDM, hpn, hnd, List.count_cons, List.count_nil]

/-- C1: on a pre-key message whose first decrypt reports an untrusted
identity, the decryptor deletes the stored identity and the stored session
exactly once each (regardless of whether the deletions succeed), emits
exactly one implicit `IdentityChange` event, calls the cipher exactly
twice (the single retry), and returns the retry's result: the unpadded
plaintext on success, the decrypt error on a second failure. A first
failure other than untrusted identity propagates as the decrypt error with
no retry, and a non-pre-key message never retries and never emits an
identity change. -/
theorem decryptDM_untrusted_identity_retry (env : SignalEnv)
    (hparse : env.parsePreKeyOk = true)
    (hfirst : env.firstAttempt = DecryptResult.untrustedIdentity) :
    List.count (DMEffect.identityChangeEvent true) (decryptDM env true).1 = 1 ∧
    List.count DMEffect.deleteIdentity (decryptDM env true).1 = 1 ∧
    List.count DMEffect.deleteSession (decryptDM env true).1 = 1 ∧
    List.count DMEffect.decryptAttempt (decryptDM env true).1 = 2 ∧
    (∀ pt, env.secondAttempt = DecryptResult.ok pt →
      (decryptDM env true).2 = unpadMessage pt) ∧
    ((env.secondAttempt = DecryptResult.untrustedIdentity ∨
        env.secondAttempt = DecryptResult.otherError) →
      (decryptDM env true).2 = some (Except.error DecErr.decryptPreKeyFailed)) ∧
    (∀ env2 : SignalEnv, env2.parsePreKeyOk = true →
      env2.firstAttempt = DecryptResult.otherError →
      decryptDM env2 true =
        ([DMEffect.decryptAttempt], some (Except.error DecErr.decryptPreKeyFailed))) ∧
    (∀ env3 : SignalEnv,
      List.count DMEffect.decryptAttempt (decryptDM env3 false).1 ≤ 1 ∧
      ∀ b, List.count (DMEffect.identityChangeEvent b) (decryptDM env3 false).1 = 0) := by
  refine ⟨?_, ?_, ?_, ?_, ?_, ?_,
    fun env2 => decryptDM_other_failure env2, fun env3 => decryptDM_nonprekey_no_retry env3⟩
  · cases hsa : env.secondAttempt <;> cases hdio : env.deleteIdentityOk <;>
      cases hdso : env.deleteSessionOk <;>
      simp [decryptDM, hparse, hfirst, hsa, hdio, hdso, List.count_cons,
        List.count_append, List.count_nil]
  · cases hsa : env.secondAttempt <;> cases hdio : env.deleteIdentityOk <;>
      cases hdso : env.deleteSessionOk <;>
      simp [decryptDM, hparse, hfirst, hsa, hdio, hdso, List.count_cons,
        List.count_append, List.count_nil]
  · cases hsa : env.secondAttempt <;> cases hdio : env.deleteIdentityOk <;>
      cases hdso : env.deleteSessionOk <;>
      simp [decryptDM, hparse, hfirst, hsa, hdio, hdso, List.count_cons,
        List.count_append, List.count_nil]
  · cases hsa : env.secondAttempt <;> cases hdio : env.deleteIdentityOk <;>
      cases hdso : env.deleteSessionOk <;>
      simp [decryptDM, hparse, hfirst, hsa, hdio, hdso, List.count_cons,
        List.count_append, List.count_nil]
  · intro pt hpt
    simp [decryptDM, hparse, hfirst, hpt]
  · rintro (h | h) <;> simp [decryptDM, hparse, hfirst, h]

/-- An environment whose first pre-key decrypt hits an untrusted identity
and whose retry succeeds with plaintext `[9, 1]`; the session deletion
fails, which must not change the outcome. -/
def w1Env : SignalEnv :=
  { parsePreKeyOk := true, parseNormalOk := true,
    firstAttempt := DecryptResult.untrustedIdentity,
    secondAttempt := DecryptResult.ok [9, 1],
    normalDecrypt := DecryptResult.ok [],
    deleteIdentityOk := true, deleteSessionOk := false }

/-- Witness for C1 on `w1Env`. -/
theorem decryptDM_untrusted_identity_retry_witness :
    List.count (DMEffect.identityChangeEvent true) (decryptDM w1Env true).1 = 1 ∧
    List.count DMEffect.decryptAttempt (decryptDM w1Env true).1 = 2 ∧
    (decryptDM w1Env true).2 = unpadMessage [9, 1] :=
  ⟨(decryptDM_untrusted_identity_retry w1Env rfl rfl).1,
   (decryptDM_untrusted_identity_retry w1Env rfl rfl).2.2.2.1,
   (decryptDM_untrusted_identity_retry w1Env rfl rfl).2.2.2.2.1 [9, 1] rfl⟩

end Whatsmeow
